import Mathlib

/-!
Verification of the inception SQL audit/execute gateway
(`src/sql/inception/`) against its natural-language specification.

The development shallowly embeds the C++ code that the claims touch:

* `SqlCacheNode.report` / `append_error` / `append_warning`
  (inception_context.h) — the diagnostics accumulator;
* the marker-comment recognizer and option parse
  (`is_inception_start`, `parse_inception_start`, inception_parse.cc);
* the leading-comment stripper (`strip_inception_comment`,
  inception.cc and inception_exec.cc — the two files carry slightly
  different copies, both are embedded);
* remote profile detection (`maybe_detect_remote_db_profile`,
  `parse_first_version`, `parse_tidb_version`, inception.cc);
* the `before_parse` dispatch hook (inception.cc);
* the SPLIT-mode grouper slice of `intercept_statement` (inception.cc);
* `predict_alter_algorithm` (inception_audit.cc);
* the batch-schema tracking effects of the audit handlers
  (inception_audit.cc);
* the remote execution engine `execute_statements` (inception_exec.cc).

C++ strings are modelled as `List Char` (`Str`); machine integers as
`Nat` with explicit truncation where the code casts (`strtoul` /
`static_cast<uint>`); remote I/O and cross-thread reads of atomics are
modelled as explicit environments of oracles (`ExecEnv`), one value per
observation point in the code.
-/

namespace Inception

/-! ### Character/string primitives (C library semantics, ASCII) -/

/-- C string model: a byte string as a list of characters. -/
abbrev Str := List Char

/-- Convert a Lean string literal to the `Str` model. -/
def str (s : String) : Str := s.data

/-- Whitespace recognized by the various hand-rolled skippers in the
source (space, tab, carriage return, newline). -/
def isWs (c : Char) : Bool :=
  c = ' ' || c = '\t' || c = '\r' || c = '\n'

/-- ASCII `tolower`, as used by `strcasecmp`/`strncasecmp` and the
column-name lowercasing in inception_audit.cc. -/
def lowerCh (c : Char) : Char :=
  if 'A' ≤ c ∧ c ≤ 'Z' then Char.ofNat (c.toNat + 32) else c

/-- Lowercase a whole string (`for (auto &c : col) c = tolower(c);`). -/
def lowerStr (s : Str) : Str := s.map lowerCh

/-- Case-insensitive character equality. -/
def eqCI (a b : Char) : Bool := lowerCh a = lowerCh b

/-- Does `s` start with `p`, case-insensitively (`strncasecmp(s, p,
strlen(p)) == 0` with `p` fully inside `s` or `s` long enough)? -/
def startsWithCI : Str → Str → Bool
  | _, [] => true
  | [], _ :: _ => false
  | c :: s, d :: p => eqCI c d && startsWithCI s p

/-- Does `s` start with `p` (case-sensitive)? -/
def startsWith : Str → Str → Bool
  | _, [] => true
  | [], _ :: _ => false
  | c :: s, d :: p => (c = d : Bool) && startsWith s p

/-- Model of `find_ci` (inception_parse.cc): index of the first
case-insensitive occurrence of `needle` in `hay`, if any. -/
def findCI (hay needle : Str) : Option Nat :=
  match hay with
  | [] => if needle.isEmpty then some 0 else none
  | _ :: t =>
    if startsWithCI hay needle then some 0
    else (findCI t needle).map (· + 1)

/-- Model of `std::string::find` (case-sensitive): index of the
first occurrence of `needle` in `hay`, if any. -/
def findSub (hay needle : Str) : Option Nat :=
  match hay with
  | [] => if needle.isEmpty then some 0 else none
  | _ :: t =>
    if startsWith hay needle then some 0
    else (findSub t needle).map (· + 1)

/-- Case-insensitive substring containment. -/
def containsCI (hay needle : Str) : Bool := (findCI hay needle).isSome

/-- Case-sensitive substring containment (`std::string::find != npos`). -/
def containsSub (hay needle : Str) : Bool := (findSub hay needle).isSome

/-- Skip leading whitespace (`skip_whitespace` in the source). -/
def skipWs (s : Str) : Str := s.dropWhile isWs

/-- Value of a decimal digit run (most significant first). -/
def digitsVal (s : Str) : Nat :=
  s.foldl (fun acc c => acc * 10 + (c.toNat - '0'.toNat)) 0

/-- Model of `strtoul(p, nullptr, 10)` on a NUL-delimited view `s`:
skip C whitespace, accept an optional sign, read the decimal digit
run.  Out-of-range magnitudes clamp to `ULONG_MAX`; a negated value
wraps modulo `2^64` (64-bit `unsigned long`). -/
def strtoul10 (s : Str) : Nat :=
  let s1 := skipWs s
  let (neg, s2) : Bool × Str :=
    match s1 with
    | '-' :: r => (true, r)
    | '+' :: r => (false, r)
    | r => (false, r)
  let v := digitsVal (s2.takeWhile Char.isDigit)
  if neg then (2 ^ 64 - v % 2 ^ 64) % 2 ^ 64
  else min v (2 ^ 64 - 1)

/-- `static_cast<uint>` of an `unsigned long` value. -/
def castUInt (n : Nat) : Nat := n % 2 ^ 32

/-! ### Core enums and data structures (inception_context.h) -/

/-- Operation mode (`enum class OpMode`). -/
inductive OpMode where
  | CHECK
  | EXECUTE
  | SPLIT
  | QUERY_TREE
deriving DecidableEq, Repr

/-- Remote database type (`enum class DbType`). -/
inductive DbType where
  | MYSQL
  | TIDB
deriving DecidableEq, Repr

/-- Error level constants. -/
def ERRLEVEL_OK : Nat := 0

/-- Error level `warning`. -/
def ERRLEVEL_WARNING : Nat := 1

/-- Error level `error`. -/
def ERRLEVEL_ERROR : Nat := 2

/-- Stage constant `none`. -/
def STAGE_NONE : Nat := 0

/-- Stage constant `checked`. -/
def STAGE_CHECKED : Nat := 1

/-- Stage constant `executed`. -/
def STAGE_EXECUTED : Nat := 2

/-- Stage constant `skipped`. -/
def STAGE_SKIPPED : Nat := 3

/-- Cached information for a single SQL statement (`SqlCacheNode`).
Fields that no claim observes and that depend on wall-clock time or
remote-assigned values (`execute_time`, `sequence`, `sqlsha1`,
`backup_dbname`) are omitted from the model. -/
structure SqlCacheNode where
  id : Nat := 0
  sql_text : Str := []
  db_name : Str := []
  table_name : Str := []
  stage : Nat := STAGE_NONE
  errlevel : Nat := ERRLEVEL_OK
  errmsg : Str := []
  stage_status : Str := []
  affected_rows : Int := 0
  sub_type : Str := []
  ddl_algorithm : Str := []
deriving DecidableEq, Repr

/-- The message-append step shared by `append_error`, `append_warning`
and `report`: `if (!errmsg.empty()) errmsg += "\n"; errmsg += buf;`. -/
def appendMsgLine (m buf : Str) : Str :=
  if m = [] then buf else m ++ '\n' :: buf

/-- `SqlCacheNode::append_error`: append a (pre-formatted) message and
raise `errlevel` to `ERRLEVEL_ERROR`. -/
def SqlCacheNode.append_error (n : SqlCacheNode) (buf : Str) : SqlCacheNode :=
  { n with
    errmsg := appendMsgLine n.errmsg buf
    errlevel := if n.errlevel < ERRLEVEL_ERROR then ERRLEVEL_ERROR else n.errlevel }

/-- `SqlCacheNode::append_warning`: append a message and raise
`errlevel` to `ERRLEVEL_WARNING` if not already higher. -/
def SqlCacheNode.append_warning (n : SqlCacheNode) (buf : Str) : SqlCacheNode :=
  { n with
    errmsg := appendMsgLine n.errmsg buf
    errlevel := if n.errlevel < ERRLEVEL_WARNING then ERRLEVEL_WARNING else n.errlevel }

/-- `SqlCacheNode::report`: report a rule violation at the configured
severity `level` (0 = disabled, 1 = warning, ≥ 2 = error).  A disabled
rule is a complete no-op; otherwise the message is appended and
`errlevel` raised to the mapped level if below it. -/
def SqlCacheNode.report (n : SqlCacheNode) (level : Nat) (buf : Str) : SqlCacheNode :=
  if level = 0 then n
  else
    let int_level := if 2 ≤ level then ERRLEVEL_ERROR else ERRLEVEL_WARNING
    { n with
      errmsg := appendMsgLine n.errmsg buf
      errlevel := if n.errlevel < int_level then int_level else n.errlevel }

/-- Fold a sequence of `(level, message)` rule reports over a node. -/
def runReports (n : SqlCacheNode) (rs : List (Nat × Str)) : SqlCacheNode :=
  rs.foldl (fun m r => m.report r.1 r.2) n

/-- A SPLIT-mode group of consecutive statements (`SplitNode`). -/
structure SplitNode where
  sql_text : Str := []
  db_name : Str := []
  table_name : Str := []
  ddlflag : Nat := 0
  is_ddl_type : Bool := false
deriving DecidableEq, Repr

/-- Per-session context (`InceptionContext`), restricted to the fields
the claims observe.  `explicit_host`/`explicit_user`/`explicit_port`
are written by inception_parse.cc; the `reset()` in the provided
inception_context.h does not list them, so `resetCtx` leaves them
unchanged.  The remote handle, timestamps and the query-tree cache are
omitted. -/
structure Ctx where
  active : Bool := false
  host : Str := []
  user : Str := []
  password : Str := []
  port : Nat := 3306
  explicit_host : Bool := false
  explicit_user : Bool := false
  explicit_port : Bool := false
  mode : OpMode := .CHECK
  force : Bool := false
  backup : Bool := true
  ignore_warnings : Bool := false
  sleep_ms : Nat := 0
  slave_hosts : List (Str × Nat) := []
  db_type : DbType := .MYSQL
  db_version_major : Nat := 8
  db_version_minor : Nat := 0
  cache_nodes : List SqlCacheNode := []
  next_id : Nat := 1
  split_nodes : List SplitNode := []
  current_usedb : Str := []
  altered_tables : List Str := []
  batch_tables : List (Str × List Str) := []
  batch_databases : List Str := []
deriving DecidableEq, Repr

/-- `InceptionContext::reset()`: restore every listed field to its
declared default (the explicit-option flags are not listed there and
survive). -/
def resetCtx (c : Ctx) : Ctx :=
  { explicit_host := c.explicit_host
    explicit_user := c.explicit_user
    explicit_port := c.explicit_port }

/-! ### Marker-comment recognition and option parse (inception_parse.cc) -/

/-- Global configuration consumed by the parse path: the fallback
remote user/password (`opt_inception_user` / `opt_inception_password`)
and the `decrypt_password` transformation (AES-128-ECB + base64 with
the configured key; it returns its input unchanged when the value has
no `AES:` tag, the key is unset, or decoding fails).  The
cryptographic primitives are outside the claims, so `decrypt` is kept
as an oracle for the whole of `decrypt_password`. -/
structure Globals where
  inception_user : Str := []
  inception_password : Str := []
  decrypt : Str → Str := id

/-- Model of `first_comment_len`: length (comment close included) of a
C comment starting exactly at the head of `s`, or 0 when `s` does not
start with `/*` or the comment never closes. -/
def first_comment_len (s : Str) : Nat :=
  match s with
  | '/' :: '*' :: body =>
    match findCI body (str "*/") with
    | some i => i + 4
    | none => 0
  | _ => 0

/-- Model of `is_inception_start`: the query is at least 24 bytes and
its first (whitespace-led) C comment contains `inception_magic_start`
case-insensitively. -/
def is_inception_start (q : Str) : Bool :=
  if q.length < 24 then false
  else
    let p := skipWs q
    let clen := first_comment_len p
    if clen = 0 then false
    else (findCI (p.take clen) (str "inception_magic_start")).isSome

/-- Model of `is_inception_commit` (same shape, other sentinel). -/
def is_inception_commit (q : Str) : Bool :=
  if q.length < 24 then false
  else
    let p := skipWs q
    let clen := first_comment_len p
    if clen = 0 then false
    else (findCI (p.take clen) (str "inception_magic_commit")).isSome

/-- Case-insensitive whole-token match used by `parse_option`
(`key_len == strlen(name) && strncasecmp(key, name, key_len) == 0`). -/
def optMatch (key name : Str) : Bool :=
  key.length = name.length && startsWithCI key name

/-- Model of the `slave-hosts` value parse: split on `,`, split each
entry at its last `:`, keep entries with a nonempty host and a
positive port.  Structured on the entry list obtained by splitting. -/
def parseSlaveEntry (entry : Str) : Option (Str × Nat) :=
  match (entry.reverse.findIdx? (· = ':')) with
  | none => none
  | some rIdx =>
    let colon := entry.length - 1 - rIdx
    let h := entry.take colon
    let p := castUInt (strtoul10 (entry.drop (colon + 1)))
    if h ≠ [] ∧ 0 < p then some (h, p) else none

/-- Split a string on a separator character (each `,`-delimited
substring, possibly empty). -/
def splitOn (sep : Char) (s : Str) : List Str :=
  match s with
  | [] => [[]]
  | c :: t =>
    if c = sep then [] :: splitOn sep t
    else
      match splitOn sep t with
      | [] => [[c]]
      | h :: r => (c :: h) :: r

/-- Model of `parse_option`: interpret one `key=value` token and
update the context.  The `port` value goes through `strtoul` and a
`uint` cast; mode/flag options test the first value character. -/
def parse_option (key val : Str) (c : Ctx) : Ctx :=
  if optMatch key (str "host") then
    { c with host := val, explicit_host := true }
  else if optMatch key (str "user") then
    { c with user := val, explicit_user := true }
  else if optMatch key (str "password") then
    { c with password := val }
  else if optMatch key (str "port") then
    { c with port := castUInt (strtoul10 val), explicit_port := true }
  else if optMatch key (str "enable-execute") then
    if val ≠ [] ∧ val.head? = some '1' then { c with mode := .EXECUTE } else c
  else if optMatch key (str "enable-check") then
    if val ≠ [] ∧ val.head? = some '1' then { c with mode := .CHECK } else c
  else if optMatch key (str "enable-split") then
    if val ≠ [] ∧ val.head? = some '1' then { c with mode := .SPLIT } else c
  else if optMatch key (str "enable-query-tree") then
    if val ≠ [] ∧ val.head? = some '1' then { c with mode := .QUERY_TREE } else c
  else if optMatch key (str "enable-force") then
    { c with force := val ≠ [] ∧ val.head? = some '1' }
  else if optMatch key (str "enable-remote-backup") then
    { c with backup := val ≠ [] ∧ val.head? = some '1' }
  else if optMatch key (str "enable-ignore-warnings") then
    { c with ignore_warnings := val ≠ [] ∧ val.head? = some '1' }
  else if optMatch key (str "sleep") then
    { c with sleep_ms := strtoul10 val }
  else if optMatch key (str "slave-hosts") || optMatch key (str "slave_hosts") then
    { c with slave_hosts := (splitOn ',' val).filterMap parseSlaveEntry }
  else c

/-- Strip the leading `--` of an option token, when present. -/
def stripDashes (tok : Str) : Str :=
  if startsWith tok (str "--") then tok.drop 2 else tok

/-- One token of the `;`-separated comment body: strip a leading
`--`, skip the `inception_magic_start` sentinel itself, then split at
the first `=` and apply `parse_option` (a token without `=` is
ignored).  The sentinel test in the source is `token_len >= 20 &&
strncasecmp(token, "inception_magic_start", 21) == 0`; the 21-byte
compare can only succeed when the token's first 21 bytes spell the
sentinel (the byte at a 20-byte token's boundary is `;`, `*` or NUL,
never `t`), which is what the model tests. -/
def parseToken (tok : Str) (c : Ctx) : Ctx :=
  if 20 ≤ (stripDashes tok).length ∧
      lowerStr ((stripDashes tok).take 21) = str "inception_magic_start" then c
  else
    match (stripDashes tok).findIdx? (· = '=') with
    | some j =>
      parse_option ((stripDashes tok).take j) ((stripDashes tok).drop (j + 1)) c
    | none => c

/-- The tokenizer loop of `parse_inception_start`: repeatedly skip
whitespace, cut the body at the next `;`, process the token.  `fuel`
bounds the iteration count (one unit per token suffices). -/
def parseTokens : Nat → Str → Ctx → Ctx
  | 0, _, c => c
  | fuel + 1, body, c =>
    if skipWs body = [] then c
    else
      parseTokens fuel
        (((skipWs body).drop ((skipWs body).takeWhile (· ≠ ';')).length).drop 1)
        (parseToken ((skipWs body).takeWhile (· ≠ ';')) c)

/-- The comment-body extraction step of `parse_inception_start`:
`none` when (after leading whitespace) fewer than three characters
remain or they do not open a C comment (`p + 2 >= end || p[0] != '/'
|| p[1] != '*'`); otherwise the characters between `/*` and the first
case-insensitive `*/` (or the end of the query). -/
def markerBody (q : Str) : Option Str :=
  let p := skipWs q
  if p.length ≤ 2 ∨ ¬ startsWith p (str "/*") then none
  else
    let afterOpen := p.drop 2
    some
      (match findCI afterOpen (str "*/") with
       | some i => afterOpen.take i
       | none => afterOpen)

/-- Fallback to the global `inception_user` when the comment gave no
user. -/
def applyUserFallback (g : Globals) (c : Ctx) : Ctx :=
  if c.user = [] ∧ g.inception_user ≠ [] then { c with user := g.inception_user }
  else c

/-- Fallback to the global `inception_password` when the comment gave
no password. -/
def applyPwFallback (g : Globals) (c : Ctx) : Ctx :=
  if c.password = [] ∧ g.inception_password ≠ [] then
    { c with password := g.inception_password }
  else c

/-- Run `decrypt_password` over a nonempty password. -/
def applyDecrypt (g : Globals) (c : Ctx) : Ctx :=
  if c.password ≠ [] then { c with password := g.decrypt c.password } else c

/-- The context after the two global fallbacks and the password
decrypt of `parse_inception_start`. -/
def finishCtx (g : Globals) (c1 : Ctx) : Ctx :=
  applyDecrypt g (applyPwFallback g (applyUserFallback g c1))

/-- The tail of `parse_inception_start` after tokenizing: the two
global fallbacks, the password decrypt, and the explicit-port range
gate — an explicitly-given port of 0 or above 65535 fails the parse;
only a successful parse sets `active := true`. -/
def parseFinish (g : Globals) (c1 : Ctx) : Bool × Ctx :=
  if (finishCtx g c1).explicit_port ∧
      ((finishCtx g c1).port = 0 ∨ 65535 < (finishCtx g c1).port) then
    (true, finishCtx g c1)
  else
    (false, { finishCtx g c1 with active := true })

/-- Model of `parse_inception_start`.  Returns `(err, ctx')`: the
C++ function's boolean result (true = parse failure) together with
the context it populated.  The context is first `reset()`; a query
without a leading `/*` fails immediately; otherwise the comment body
is tokenized and the finishing steps run. -/
def parse_inception_start (g : Globals) (q : Str) (ctx : Ctx) : Bool × Ctx :=
  match markerBody q with
  | none => (true, resetCtx ctx)
  | some body => parseFinish g (parseTokens (body.length + 1) body (resetCtx ctx))

/-! ### Leading-comment stripping (inception.cc, inception_exec.cc) -/

/-- Model of `strip_inception_comment` in inception.cc: skip leading
whitespace; when at least three characters remain and they open a C
comment that closes, drop the comment and the whitespace after it
(returning the rest, or the empty string when the comment was the
whole query); in every other case return the query unchanged. -/
def strip_inception_comment (q : Str) : Str :=
  let p := skipWs q
  if 2 < p.length ∧ startsWith p (str "/*") then
    match findSub (p.drop 2) (str "*/") with
    | some i => skipWs (p.drop (2 + i + 2))
    | none => q
  else q

/-- Model of `strip_inception_comment` in inception_exec.cc: the same
idea, but the comment is only dropped when it contains the
`inception_magic_start` sentinel, and two leading characters suffice
to test for `/*`. -/
def strip_inception_comment_exec (q : Str) : Str :=
  let p := skipWs q
  if 1 < p.length ∧ startsWith p (str "/*") then
    match findSub (p.drop 2) (str "*/") with
    | some i =>
      let comment := p.take (2 + i + 2)
      if containsSub comment (str "inception_magic_start") then
        skipWs (p.drop (2 + i + 2))
      else q
    | none => q
  else q

/-! ### Remote profile detection (inception.cc) -/

/-- One search step of `parse_first_version`: at the head of the
text, a digit run immediately followed by `.` and at least one digit
yields `(major, minor)` (both via `strtoul`, i.e. the value of the
digit run); otherwise scanning resumes after the inspected span.
`fuel` bounds the scan (one unit per inspected character suffices). -/
def parseFirstVersionGo : Nat → Str → Option (Nat × Nat)
  | 0, _ => none
  | _ + 1, [] => none
  | fuel + 1, c :: rest =>
    if ¬ c.isDigit then parseFirstVersionGo fuel rest
    else
      let run := (c :: rest).takeWhile Char.isDigit
      let after := (c :: rest).dropWhile Char.isDigit
      match after with
      | '.' :: rest2 =>
        let frac := rest2.takeWhile Char.isDigit
        if frac = [] then parseFirstVersionGo fuel rest2
        else some (castUInt (strtoul10 run), castUInt (strtoul10 frac))
      | _ => parseFirstVersionGo fuel after

/-- Model of `parse_first_version`: first `M.N` digit pattern in the
text. -/
def parse_first_version (s : Str) : Option (Nat × Nat) :=
  parseFirstVersionGo (s.length + 1) s

/-- Model of `parse_tidb_version`: try the markers `TiDB-v`,
`tidb-v`, `TiDB-`, `tidb-` in order; for the first marker present,
parse the first version pattern of the tail after it; a marker whose
tail has no version pattern falls through to the next marker. -/
def parse_tidb_version (s : Str) : Option (Nat × Nat) :=
  [str "TiDB-v", str "tidb-v", str "TiDB-", str "tidb-"].foldr
    (fun marker acc =>
      match findSub s marker with
      | some pos =>
        match parse_first_version (s.drop (pos + marker.length)) with
        | some v => some v
        | none => acc
      | none => acc)
    none

/-- Model of `maybe_detect_remote_db_profile`.  `remoteVer` is the
`server_version` string of the remote handle (`none` when the
connection could not be opened, in which case the context is left
unchanged).  TiDB is detected by the two case-sensitive substring
probes `find("TiDB")` / `find("tidb")`; the version is parsed with
the TiDB markers preferred and the plain first-`M.N` scan as
fallback; when nothing parses, the context's version fields keep
their previous values. -/
def maybe_detect_remote_db_profile (remoteVer : Option Str) (c : Ctx) : Ctx :=
  match remoteVer with
  | none => c
  | some server_info =>
    let is_tidb := containsSub server_info (str "TiDB") ||
                   containsSub server_info (str "tidb")
    let c := { c with db_type := if is_tidb then .TIDB else .MYSQL }
    let parsed :=
      if is_tidb then
        match parse_tidb_version server_info with
        | some v => some v
        | none => parse_first_version server_info
      else parse_first_version server_info
    match parsed with
    | some (M, m) => { c with db_version_major := M, db_version_minor := m }
    | none => c

/-! ### The `before_parse` hook (inception.cc) -/

/-- Trim of `handle_inception_command`: leading whitespace, then
trailing whitespace and semicolons. -/
def cmdTrim (q : Str) : Str :=
  ((skipWs q).reverse.dropWhile (fun c => isWs c || c = ';')).reverse

/-- Model of the dispatch tests of `handle_inception_command`: the
hook claims the query (returns true) exactly when the trimmed text
starts with one of the four verb forms, whatever follows. -/
def isInceptionCommand (q : Str) : Bool :=
  let t := cmdTrim q
  (15 ≤ t.length && startsWithCI t (str "inception show ")) ||
  (14 ≤ t.length && startsWithCI t (str "inception set ")) ||
  (14 ≤ t.length && startsWithCI t (str "inception get ")) ||
  (15 ≤ t.length && startsWithCI t (str "inception kill "))

/-- Result of the `before_parse` hook: whether the hook consumed the
query (`handled`, the C++ return value), whether an error was raised
to the client on this path, and the session context afterwards. -/
structure BeforeParseResult where
  handled : Bool
  error : Bool
  ctx : Ctx
deriving Repr

/-- Model of `before_parse`.  A commit sentinel finalizes the batch
(the context is fully `reset()` afterwards; without an active session
it is an error and the context is untouched).  A start sentinel runs
`parse_inception_start` — note this begins with `reset()`, so an
already-active context is simply discarded — then profile detection;
on success the hook does NOT consume the query (the SQL after the
comment falls through to the parser and the interceptor).  Otherwise
the query is checked against the admin-command forms.  The remote
side effects of commit (execution, result sets) act on caches that
`reset()` clears, so the returned context is faithful. -/
def before_parse (g : Globals) (remoteVer : Option Str) (ctx : Ctx) (q : Str) :
    BeforeParseResult :=
  if is_inception_commit q then
    if ctx.active then
      { handled := true, error := false, ctx := resetCtx ctx }
    else
      { handled := true, error := true, ctx := ctx }
  else if is_inception_start q then
    if (parse_inception_start g q ctx).1 then
      { handled := true, error := true, ctx := (parse_inception_start g q ctx).2 }
    else if isInceptionCommand q then
      { handled := true, error := false,
        ctx := maybe_detect_remote_db_profile remoteVer
          (parse_inception_start g q ctx).2 }
    else
      { handled := false, error := false,
        ctx := maybe_detect_remote_db_profile remoteVer
          (parse_inception_start g q ctx).2 }
  else if isInceptionCommand q then
    { handled := true, error := false, ctx := ctx }
  else
    { handled := false, error := false, ctx := ctx }

/-! ### SPLIT-mode grouping (`intercept_statement`, inception.cc) -/

/-- The `enum_sql_command` values the modelled paths dispatch on. -/
inductive SqlCmd where
  | CHANGE_DB
  | SET_OPTION
  | CREATE_TABLE
  | ALTER_TABLE
  | DROP_TABLE
  | RENAME_TABLE
  | TRUNCATE
  | CREATE_INDEX
  | DROP_INDEX
  | CREATE_DB
  | DROP_DB
  | ALTER_DB
  | CREATE_VIEW
  | DROP_VIEW
  | CREATE_TRIGGER
  | DROP_TRIGGER
  | INSERT
  | UPDATE
  | DELETE
  | SELECT
  | OTHER
deriving DecidableEq, Repr

/-- The DDL classification switch of the SPLIT path. -/
def isDdlCmd (c : SqlCmd) : Bool :=
  match c with
  | .CREATE_TABLE | .ALTER_TABLE | .DROP_TABLE | .RENAME_TABLE | .TRUNCATE
  | .CREATE_INDEX | .DROP_INDEX | .CREATE_DB | .DROP_DB | .ALTER_DB
  | .CREATE_VIEW | .DROP_VIEW | .CREATE_TRIGGER | .DROP_TRIGGER => true
  | _ => false

/-- The AST surface the SPLIT path consumes for one parsed statement:
the command; the first entry of `lex->query_tables` (its possibly-NULL
`db` and `table_name`), when the list is nonempty; `lex->name`
(database-level DDL); `lex->query_block->db` (for `USE`); the raw
query text. -/
structure SplitStmt where
  cmd : SqlCmd
  queryTables : Option (Option Str × Option Str) := none
  lexName : Option Str := none
  qbDb : Option Str := none
  rawQuery : Str := []
deriving Repr

/-- SPLIT-mode session state: the grouped output, the tracked
`current_usedb`, and the front-end's current database (`thd->db()`),
which `USE` also updates. -/
structure SplitState where
  split_nodes : List SplitNode := []
  current_usedb : Str := []
  thd_db : Option Str := none
deriving DecidableEq, Repr

/-- `(db_name, tbl_name)` extraction of the SPLIT path: from the
first query table (its `db` falling back to `thd->db()`), else from
`lex->name` for database-level DDL, else both empty. -/
def splitTarget (st : SplitState) (s : SplitStmt) : Str × Str :=
  match s.queryTables with
  | some (dbOpt, tblOpt) =>
    let tbl := tblOpt.getD []
    let db :=
      match dbOpt with
      | some d => d
      | none => st.thd_db.getD []
    (db, tbl)
  | none =>
    if s.cmd = .CREATE_DB ∨ s.cmd = .DROP_DB ∨ s.cmd = .ALTER_DB then
      match s.lexName with
      | some n => (n, [])
      | none => ([], [])
    else ([], [])

/-- Does the last split group match this statement's target and
DDL/DML class (the merge condition of the source)? -/
def matchesLastGroup (st : SplitState) (db tbl : Str) (ddl : Bool) : Prop :=
  match st.split_nodes.getLast? with
  | some last => last.table_name = tbl ∧ last.db_name = db ∧ last.is_ddl_type = ddl
  | none => False

instance (st : SplitState) (db tbl : Str) (ddl : Bool) :
    Decidable (matchesLastGroup st db tbl ddl) := by
  unfold matchesLastGroup
  cases st.split_nodes.getLast? <;> simp <;> infer_instance

/-- Replace the last element of a list (identity on `[]`). -/
def mapLast (f : α → α) : List α → List α
  | [] => []
  | [a] => [f a]
  | a :: b :: r => a :: mapLast f (b :: r)

/-- The `USE`-prefix of a new split group. -/
def splitUsePfx (st : SplitState) (db : Str) : Str :=
  if st.current_usedb ≠ [] then str "USE " ++ st.current_usedb ++ str ";\n"
  else if db ≠ [] then str "USE " ++ db ++ str ";\n"
  else []

/-- Model of the SPLIT-mode slice of `intercept_statement` (the mode
is SPLIT and the statement is neither empty nor the client's
`SELECT DATABASE()` probe).  `USE` updates the database context and
produces no group; `SET` is skipped; any other statement either merges
into the last group (same `(db, table)` and same DDL/DML class) or
opens a new group carrying the `USE` prefix; `ddlflag` escalates to 1
for `ALTER TABLE`/`DROP TABLE`. -/
def intercept_statement_split (st : SplitState) (s : SplitStmt) : SplitState :=
  if s.cmd = .CHANGE_DB then
    match s.qbDb with
    | some db => { st with current_usedb := db, thd_db := some db }
    | none => st
  else if s.cmd = .SET_OPTION then st
  else
    let sql_text := strip_inception_comment s.rawQuery
    let (db, tbl) := splitTarget st s
    let is_ddl := isDdlCmd s.cmd
    let ddlflag : Nat := if s.cmd = .ALTER_TABLE ∨ s.cmd = .DROP_TABLE then 1 else 0
    if matchesLastGroup st db tbl is_ddl then
      { st with
        split_nodes := mapLast
          (fun last =>
            { last with
              sql_text := last.sql_text ++ sql_text ++ str ";\n"
              ddlflag := if ddlflag ≠ 0 then 1 else last.ddlflag })
          st.split_nodes }
    else
      { st with
        split_nodes := st.split_nodes ++
          [{ sql_text := splitUsePfx st db ++ sql_text ++ str ";\n"
             db_name := db
             table_name := tbl
             ddlflag := ddlflag
             is_ddl_type := is_ddl }] }

/-! ### ALTER TABLE algorithm prediction (inception_audit.cc) -/

/-- The `Alter_info::flags` bitmask, one field per distinct flag the
predictor inspects (the bits are independent, so a record of Booleans
is a faithful image of the bitmask). -/
structure AlterFlags where
  add_column : Bool := false
  drop_column : Bool := false
  change_column : Bool := false
  change_column_default : Bool := false
  column_order : Bool := false
  add_index : Bool := false
  drop_index : Bool := false
  rename_index : Bool := false
  index_visibility : Bool := false
  rename : Bool := false
  order : Bool := false
  options : Bool := false
  keys_onoff : Bool := false
  recreate : Bool := false
  add_partition : Bool := false
  drop_partition : Bool := false
  coalesce_partition : Bool := false
  reorganize_partition : Bool := false
  exchange_partition : Bool := false
  truncate_partition : Bool := false
  remove_partitioning : Bool := false
  discard_tablespace : Bool := false
  import_tablespace : Bool := false
  column_visibility : Bool := false
deriving DecidableEq, Repr

/-- Naming of the three algorithm levels (the final `switch`). -/
def algoName (worst : Nat) : Str :=
  match worst with
  | 0 => str "INSTANT"
  | 1 => str "INPLACE"
  | _ => str "COPY"

/-- The `worst` accumulator of `predict_alter_algorithm`, as the
source computes it: start at 0 and `raise` per present flag, in
source order.  `engine_changed` is `create_info->used_fields &
HA_CREATE_USED_ENGINE`; `major` is `ctx->db_version_major`. -/
def predictWorst (f : AlterFlags) (engine_changed : Bool) (major : Nat) : Nat :=
  let is80 : Bool := 8 ≤ major
  let w : Nat := 0
  let w := if f.add_column then max w (if is80 then 0 else 1) else w
  let w := if f.drop_column then max w 1 else w
  let w := if f.change_column then max w 2 else w
  let w := if f.change_column_default then max w 0 else w
  let w := if f.column_order then max w 1 else w
  let w := if f.add_index then max w 1 else w
  let w := if f.drop_index then max w 1 else w
  let w := if f.rename_index then max w 1 else w
  let w := if f.index_visibility then max w 1 else w
  let w := if f.rename then max w 0 else w
  let w := if f.order then max w 2 else w
  let w := if f.options then (if engine_changed then max w 2 else max w 0) else w
  let w := if f.keys_onoff then max w 1 else w
  let w := if f.recreate then max w 2 else w
  let w := if (f.add_partition || f.drop_partition || f.coalesce_partition ||
               f.reorganize_partition || f.exchange_partition ||
               f.truncate_partition || f.remove_partitioning) then max w 2 else w
  let w := if (f.discard_tablespace || f.import_tablespace) then max w 1 else w
  let w := if f.column_visibility then max w 0 else w
  w

/-- Model of `predict_alter_algorithm`. -/
def predict_alter_algorithm (f : AlterFlags) (engine_changed : Bool)
    (major : Nat) : Str :=
  algoName (predictWorst f engine_changed major)

/-- Any partition operation flag (the claim's "any partition
operation" bucket). -/
def partitionAny (f : AlterFlags) : Bool :=
  f.add_partition || f.drop_partition || f.coalesce_partition ||
  f.reorganize_partition || f.exchange_partition ||
  f.truncate_partition || f.remove_partitioning

/-- Specification-side reading of the claim: the list of per-operation
levels for the operations present in the statement — RENAME,
ADD_COLUMN on an 8.0 target, CHANGE_DEFAULT, COLUMN_VISIBILITY and
comment-only OPTIONS rate INSTANT (0); ADD_COLUMN on 5.7, DROP_COLUMN,
COLUMN_ORDER, ADD_INDEX, DROP_INDEX, RENAME_INDEX, INDEX_VISIBILITY,
KEYS_ONOFF and DISCARD/IMPORT  TABLESPACE rate INPLACE (1);
CHANGE_COLUMN, ORDER, FORCE, any partition operation and
ENGINE-changing OPTIONS rate COPY (2). -/
def specOpLevels (f : AlterFlags) (engine_changed : Bool) (major : Nat) :
    List Nat :=
  (if f.add_column then [if (8 ≤ major : Bool) then 0 else 1] else []) ++
  (if f.drop_column then [1] else []) ++
  (if f.change_column then [2] else []) ++
  (if f.change_column_default then [0] else []) ++
  (if f.column_order then [1] else []) ++
  (if f.add_index then [1] else []) ++
  (if f.drop_index then [1] else []) ++
  (if f.rename_index then [1] else []) ++
  (if f.index_visibility then [1] else []) ++
  (if f.rename then [0] else []) ++
  (if f.order then [2] else []) ++
  (if f.options && engine_changed then [2] else []) ++
  (if f.options && !engine_changed then [0] else []) ++
  (if f.keys_onoff then [1] else []) ++
  (if f.recreate then [2] else []) ++
  (if partitionAny f then [2] else []) ++
  (if f.discard_tablespace || f.import_tablespace then [1] else []) ++
  (if f.column_visibility then [0] else [])

/-- Specification-side worst level: the maximum of the per-operation
levels (`INSTANT` for an operation-free statement). -/
def specWorstLevel (f : AlterFlags) (engine_changed : Bool) (major : Nat) : Nat :=
  (specOpLevels f engine_changed major).foldl max 0

/-! ### Batch-schema tracking (inception_audit.cc)

The audit handlers maintain `ctx->batch_tables`, a map
`"db.table" → set<column>`.  Exactly two handlers write it:
`audit_create_table` (which inserts/overwrites the entry for the
created table, unconditionally, after the rule checks) and the
ADD/DROP COLUMN branches of `audit_alter_table` (which mutate the
column set of an entry that is already present — `in_batch`).
`audit_drop_table` only emits the severity report; it never touches
the map, and neither does `audit_truncate`. -/

/-- `batch_table_key`: `"db.table"`. -/
def batch_table_key (db tbl : Str) : Str := db ++ '.' :: tbl

/-- Ordered-set insert on the column list (std::set semantics up to
order, which no claim observes): no duplicates. -/
def colInsert (c : Str) (s : List Str) : List Str :=
  if c ∈ s then s else s ++ [c]

/-- Assoc-list lookup of a batch table entry. -/
def btFind (bt : List (Str × List Str)) (k : Str) : Option (List Str) :=
  match bt with
  | [] => none
  | (k2, v) :: r => if k2 = k then some v else btFind r k

/-- `batch_tables[key] = cols` — overwrite or append. -/
def btSet (bt : List (Str × List Str)) (k : Str) (v : List Str) :
    List (Str × List Str) :=
  match bt with
  | [] => [(k, v)]
  | (k2, w) :: r => if k2 = k then (k, v) :: r else (k2, w) :: btSet r k v

/-- Mutate the column set stored at `key` (no-op when absent). -/
def btModify (bt : List (Str × List Str)) (k : Str)
    (f : List Str → List Str) : List (Str × List Str) :=
  match bt with
  | [] => []
  | (k2, v) :: r => if k2 = k then (k, f v) :: r else (k2, v) :: btModify r k f

/-- The audited statements' effect surface on the batch schema: the
per-statement data each handler reads.  `db` is the resolved database
(`tbl->db ? tbl->db : thd->db()`, `none` when neither is set);
`cols`/`adds`/`drops` carry the column names of the create list and
of the drop list. -/
inductive AuditOp where
  | createTable (db : Option Str) (tbl : Option Str) (cols : List Str)
  | alterTable (db : Option Str) (tbl : Option Str) (adds : List Str)
      (drops : List Str)
  | dropTable
  | truncateTable (db : Option Str) (tbl : Option Str)
  | createDb (db : Option Str)
  | otherStmt
deriving Repr

/-- Effect of one audited statement on `ctx->batch_tables`
(projection of `audit_create_table` / `audit_alter_table` /
`audit_drop_table` / `audit_truncate` to that field).

* CREATE TABLE: when db and table resolve, store the lowercased
  create-list columns under `db.table` — this happens after the rule
  checks, whatever diagnostics they raised;
* ALTER TABLE: when the key is already tracked (`in_batch`), the
  ADD COLUMN branch inserts each lowercased new column, then the
  DROP COLUMN branch erases each lowercased dropped column;
* DROP TABLE and TRUNCATE never write the map. -/
def batchTablesStep (bt : List (Str × List Str)) : AuditOp →
    List (Str × List Str)
  | .createTable (some db) (some tbl) cols =>
    btSet bt (batch_table_key db tbl)
      (cols.foldl (fun s c => colInsert (lowerStr c) s) [])
  | .alterTable (some db) (some tbl) adds drops =>
    let key := batch_table_key db tbl
    if (btFind bt key).isSome then
      let bt1 := adds.foldl (fun b c => btModify b key (colInsert (lowerStr c))) bt
      drops.foldl (fun b c => btModify b key (fun s => s.filter (· ≠ lowerStr c))) bt1
    else bt
  | _ => bt

/-- Run a batch's audited statements over the (initially empty) batch
schema. -/
def runBatchTables (ops : List AuditOp) : List (Str × List Str) :=
  ops.foldl batchTablesStep []

/-- Does an audit op create the batch-table entry `k`? -/
def createsKey (k : Str) : AuditOp → Prop
  | .createTable (some db) (some tbl) _ => batch_table_key db tbl = k
  | _ => False

instance (k : Str) (op : AuditOp) : Decidable (createsKey k op) := by
  unfold createsKey
  cases op with
  | createTable db tbl cols => cases db <;> cases tbl <;> (simp; infer_instance)
  | _ => (simp; infer_instance)

/-! ### Remote execution engine (inception_exec.cc)

`execute_statements` interacts with the remote server and with other
threads (the `killed` atomic, the mutable `sleep_ms`).  Each
observation point gets an oracle in `ExecEnv`, indexed by the 0-based
position of the statement being processed:

* `killed_start` — the `ctx->killed.load()` before anything runs;
* `killed_at i` — the `ctx->killed.load()` at the top of the loop
  iteration for statement `i` (the statement's dispatch point);
* `connect_ok` / `conn_err` — outcome of `connect_remote`;
* `precheck_fail i` / `precheck_err i` — outcome of
  `pre_execute_checks` (read-only gate and throttle loop);
* `exec_fail i` / `exec_err i` — outcome of `mysql_real_query`;
* `exec_warnings i` — the `SHOW WARNINGS` rows collected after a
  successful execution, each mapped to error (`true`) or warning.

The model additionally returns the list of indices for which
`execute_one` was invoked — the statements actually dispatched to the
remote server — which the stage field alone does not record. -/

structure ExecEnv where
  killed_start : Bool := false
  killed_at : Nat → Bool := fun _ => false
  connect_ok : Bool := true
  conn_err : Str := []
  precheck_fail : Nat → Bool := fun _ => false
  precheck_err : Nat → Str := fun _ => []
  exec_fail : Nat → Bool := fun _ => false
  exec_err : Nat → Str := fun _ => []
  exec_warnings : Nat → List (Bool × Str) := fun _ => []
  exec_affected : Nat → Int := fun _ => 0

/-- Model of `execute_one` for statement `i`: strip the magic
comment; an empty result is a silent success; otherwise the remote
query either fails (error recorded, stage still set to `executed`)
or succeeds (stage `executed`, remote warnings appended).  Returns
the node and the C++ `true`-on-error result. -/
def execute_one (env : ExecEnv) (i : Nat) (n : SqlCacheNode) :
    SqlCacheNode × Bool :=
  let exec_sql := strip_inception_comment_exec n.sql_text
  if exec_sql = [] then
    ({ n with stage := STAGE_EXECUTED, stage_status := str "Execute completed" },
     false)
  else if env.exec_fail i then
    ({ n.append_error (str "Execute failed: " ++ env.exec_err i) with
       stage := STAGE_EXECUTED, stage_status := str "Execute failed" },
     true)
  else
    let n := { n with stage := STAGE_EXECUTED,
                      stage_status := str "Execute completed",
                      affected_rows := env.exec_affected i }
    ((env.exec_warnings i).foldl
      (fun m w => if w.1 then m.append_error w.2 else m.append_warning w.2) n,
     false)

/-- The statement loop of `execute_statements`.  Arguments: the
oracle environment, the session `force` flag, the index of the next
statement, the `stop_exec` and `has_error` accumulators, and the
remaining statements.  Returns the processed statements, the indices
dispatched via `execute_one`, and the final `has_error`. -/
def execLoop (env : ExecEnv) (force : Bool) :
    Nat → Bool → Bool → List SqlCacheNode →
    List SqlCacheNode × List Nat × Bool
  | _, _, has_error, [] => ([], [], has_error)
  | i, stop_exec, has_error, n :: rest =>
    if env.killed_at i then
      let n := { n with stage := STAGE_EXECUTED,
                        stage_status := str "Killed by user" }
      let r := execLoop env force (i + 1) stop_exec has_error rest
      (n :: r.1, r.2.1, r.2.2)
    else if stop_exec then
      let n := { n.append_error (str "Skipped: previous statement had errors.")
                 with stage := STAGE_SKIPPED,
                      stage_status := str "Skipped due to prior error" }
      let r := execLoop env force (i + 1) stop_exec has_error rest
      (n :: r.1, r.2.1, r.2.2)
    else if env.precheck_fail i then
      let n := { n.append_error (env.precheck_err i) with
                 stage := STAGE_CHECKED,
                 stage_status := str "Pre-check failed" }
      let r := execLoop env force (i + 1) true true rest
      (n :: r.1, r.2.1, r.2.2)
    else
      let e := execute_one env i n
      let stop := e.2 && !force
      let r := execLoop env force (i + 1) stop (has_error || e.2) rest
      (e.1 :: r.1, i :: r.2.1, r.2.2)

/-- The batch gate of the pre-scan: some statement has an audit error
and `force` is off, or an audit warning (or worse) and
`ignore_warnings` is off. -/
def prescanBlocks (force ignore_warnings : Bool) (ns : List SqlCacheNode) : Bool :=
  ns.any fun n =>
    (ERRLEVEL_ERROR ≤ n.errlevel && !force) ||
    (ERRLEVEL_WARNING ≤ n.errlevel && !ignore_warnings)

/-- Model of `execute_statements`.  Returns the updated context, the
indices of statements dispatched to the remote server, and the C++
boolean result.  An empty cache is a silent no-op; a batch that was
already killed marks every statement `executed`/"Killed by user"; a
failed connect attaches the error to every statement; the pre-scan
gate leaves the whole cache untouched; otherwise the loop runs. -/
def execute_statements (env : ExecEnv) (ctx : Ctx) :
    Ctx × List Nat × Bool :=
  if ctx.cache_nodes = [] then (ctx, [], false)
  else if env.killed_start then
    ({ ctx with cache_nodes := ctx.cache_nodes.map fun n =>
        { n with stage := STAGE_EXECUTED,
                 stage_status := str "Killed by user" } },
     [], true)
  else if ¬ env.connect_ok then
    ({ ctx with cache_nodes := ctx.cache_nodes.map fun n =>
        { n.append_error env.conn_err with
          stage := STAGE_EXECUTED, stage_status := str "Execute failed" } },
     [], true)
  else if prescanBlocks ctx.force ctx.ignore_warnings ctx.cache_nodes then
    (ctx, [], true)
  else
    let r := execLoop env ctx.force 0 false false ctx.cache_nodes
    ({ ctx with cache_nodes := r.1 }, r.2.1, r.2.2)

/-! ### Concrete instances used by witnesses and counterexamples -/

/-- A batch whose single statement carries an audit error (gating
instance for the pre-scan claim). -/
def gateCtxW : Ctx :=
  { cache_nodes := [{ id := 1, sql_text := str "DROP TABLE d.t",
                      stage := STAGE_CHECKED, errlevel := ERRLEVEL_ERROR }] }

/-- An environment whose `killed` atomic reads false at the start and
true from the dispatch check of the second statement on. -/
def killedEnvX : ExecEnv := { killed_at := fun i => 1 ≤ i }

/-- A two-statement batch, audit-clean, in a forceless session. -/
def killedCtxX : Ctx :=
  { cache_nodes := [{ id := 1, sql_text := str "SELECT 1", stage := STAGE_CHECKED },
                    { id := 2, sql_text := str "SELECT 2", stage := STAGE_CHECKED }] }

/-- An active session holding one cached statement (batch in
progress), as seen when a second `magic_start` arrives. -/
def activeCtxX : Ctx :=
  { active := true, mode := .EXECUTE, host := str "a",
    cache_nodes := [{ id := 1, sql_text := str "SELECT 1",
                      stage := STAGE_CHECKED }] }

/-- Split-mode state after `USE shop;` and a first `INSERT INTO o`. -/
def splitStW : SplitState :=
  { split_nodes := [{ sql_text := str "USE shop;\nINSERT INTO o VALUES (1);\n",
                      db_name := str "shop", table_name := str "o",
                      ddlflag := 0, is_ddl_type := false }],
    current_usedb := str "shop", thd_db := some (str "shop") }

/-- A second `INSERT INTO o` statement arriving in split mode. -/
def splitSW : SplitStmt :=
  { cmd := .INSERT, queryTables := some (none, some (str "o")),
    rawQuery := str "INSERT INTO o VALUES (2)" }

/-! ### Helper lemmas -/

theorem report_errlevel_le (n : SqlCacheNode) (level : Nat) (msg : Str) :
    n.errlevel ≤ (n.report level msg).errlevel := by
  unfold SqlCacheNode.report ERRLEVEL_ERROR ERRLEVEL_WARNING
  split
  · exact le_refl _
  · simp only
    split <;> split <;> omega

theorem runReports_errlevel_le (n : SqlCacheNode) (rs : List (Nat × Str)) :
    n.errlevel ≤ (runReports n rs).errlevel := by
  induction rs generalizing n with
  | nil => exact le_refl _
  | cons r rest ih =>
    exact le_trans (report_errlevel_le n r.1 r.2) (ih (n.report r.1 r.2))

theorem execLoop_dispatched_not_killed (env : ExecEnv) (force : Bool)
    (ns : List SqlCacheNode) (i : Nat) (stop he : Bool) (j : Nat)
    (hj : j ∈ (execLoop env force i stop he ns).2.1) :
    env.killed_at j = false := by
  induction ns generalizing i stop he with
  | nil => simp [execLoop] at hj
  | cons n rest ih =>
    rw [execLoop] at hj
    by_cases hk : env.killed_at i = true
    · simp only [hk, if_true] at hj
      exact ih (i + 1) stop he hj
    · simp only [Bool.not_eq_true] at hk
      simp only [hk, Bool.false_eq_true, if_false] at hj
      by_cases hs : stop = true
      · simp only [hs, if_true] at hj
        exact ih (i + 1) true he hj
      · simp only [Bool.not_eq_true] at hs
        simp only [hs, Bool.false_eq_true, if_false] at hj
        by_cases hp : env.precheck_fail i = true
        · simp only [hp, if_true] at hj
          exact ih (i + 1) true true hj
        · simp only [Bool.not_eq_true] at hp
          simp only [hp, Bool.false_eq_true, if_false] at hj
          simp only [List.mem_cons] at hj
          rcases hj with rfl | hj
          · exact hk
          · exact ih (i + 1) _ _ hj

theorem execLoop_killed_node (env : ExecEnv) (force : Bool)
    (ns : List SqlCacheNode) (i : Nat) (stop he : Bool) (j : Nat)
    (hj : j < ns.length) (hk : env.killed_at (i + j) = true) :
    ((execLoop env force i stop he ns).1[j]?).map
      (fun n => (n.stage, n.stage_status)) =
      some (STAGE_EXECUTED, str "Killed by user") := by
  induction ns generalizing i stop he j with
  | nil => simp at hj
  | cons n rest ih =>
    rw [execLoop]
    cases j with
    | zero =>
      simp only [Nat.add_zero] at hk
      simp [hk]
    | succ j =>
      have hk' : env.killed_at (i + 1 + j) = true := by
        have h12 : i + 1 + j = i + (j + 1) := by omega
        rw [h12]; exact hk
      have hj' : j < rest.length := by simpa using hj
      by_cases h1 : env.killed_at i = true
      · simp only [h1, if_true, List.getElem?_cons_succ]
        exact ih (i + 1) stop he j hj' hk'
      · simp only [Bool.not_eq_true] at h1
        simp only [h1, Bool.false_eq_true, if_false]
        by_cases h2 : stop = true
        · simp only [h2, if_true, List.getElem?_cons_succ]
          exact ih (i + 1) true he j hj' hk'
        · simp only [Bool.not_eq_true] at h2
          simp only [h2, Bool.false_eq_true, if_false]
          by_cases h3 : env.precheck_fail i = true
          · simp only [h3, if_true, List.getElem?_cons_succ]
            exact ih (i + 1) true true j hj' hk'
          · simp only [Bool.not_eq_true] at h3
            simp only [h3, Bool.false_eq_true, if_false, List.getElem?_cons_succ]
            exact ih (i + 1) _ _ j hj' hk'

/-! ### Claim C5 -/

/-- C5.  A statement's diagnostics are monotone: a `report` whose
configured severity is `off` (0) changes nothing; a report at
severity `warning`/`error` appends exactly one message line and
raises `errlevel` to at least the mapped severity, never lowering it;
consequently `errlevel` never decreases across any sequence of
reports. -/
theorem report_claim (n : SqlCacheNode) (level : Nat) (msg : Str)
    (rs : List (Nat × Str)) :
    n.report 0 msg = n ∧
    (1 ≤ level →
      (n.report level msg).errmsg = appendMsgLine n.errmsg msg ∧
      (if 2 ≤ level then ERRLEVEL_ERROR else ERRLEVEL_WARNING) ≤
        (n.report level msg).errlevel ∧
      n.errlevel ≤ (n.report level msg).errlevel) ∧
    n.errlevel ≤ (runReports n rs).errlevel := by
  refine ⟨by simp [SqlCacheNode.report], fun hl => ?_,
    runReports_errlevel_le n rs⟩
  have h0 : ¬ level = 0 := by omega
  refine ⟨by simp [SqlCacheNode.report, h0], ?_, report_errlevel_le n level msg⟩
  unfold SqlCacheNode.report ERRLEVEL_ERROR ERRLEVEL_WARNING
  simp only [h0, if_false]
  by_cases h2 : 2 ≤ level <;> simp only [h2, if_true, if_false] <;> split <;> omega

/-- Witness for C5 at a fresh statement record and severity 1. -/
theorem report_claim_witness :
    (({ } : SqlCacheNode).report 1 (str "w")).errmsg =
      appendMsgLine ({ } : SqlCacheNode).errmsg (str "w") ∧
    (if 2 ≤ 1 then ERRLEVEL_ERROR else ERRLEVEL_WARNING) ≤
      (({ } : SqlCacheNode).report 1 (str "w")).errlevel ∧
    ({ } : SqlCacheNode).errlevel ≤ (({ } : SqlCacheNode).report 1 (str "w")).errlevel :=
  (report_claim { } 1 (str "w") []).2.1 (by omega)

/-! ### Claim C1 -/

/-- C1.  The pre-scan gate of `execute_statements`: when some cached
statement has `errlevel ≥ error` with `force` off, or
`errlevel ≥ warning` with `ignore_warnings` off, then no statement of
the batch is dispatched to the remote server, and — whenever the
pre-scan is actually reached (the batch was not already killed and
the connect succeeded) — the whole statement cache is left exactly as
the audit produced it, every stage staying `checked`. -/
theorem execute_statements_prescan_blocks (env : ExecEnv) (ctx : Ctx)
    (hgate : ∃ n ∈ ctx.cache_nodes,
      (ERRLEVEL_ERROR ≤ n.errlevel ∧ ctx.force = false) ∨
      (ERRLEVEL_WARNING ≤ n.errlevel ∧ ctx.ignore_warnings = false)) :
    (execute_statements env ctx).2.1 = [] ∧
    (env.killed_start = false → env.connect_ok = true →
      (execute_statements env ctx).1 = ctx) := by
  have hblock : prescanBlocks ctx.force ctx.ignore_warnings ctx.cache_nodes
      = true := by
    obtain ⟨n, hn, hcase⟩ := hgate
    unfold prescanBlocks
    rw [List.any_eq_true]
    refine ⟨n, hn, ?_⟩
    rcases hcase with ⟨h1, h2⟩ | ⟨h1, h2⟩
    · simp [decide_eq_true h1, h2]
    · simp [decide_eq_true h1, h2]
  constructor
  · unfold execute_statements
    repeat' split
    all_goals rfl
  · intro hks hco
    unfold execute_statements
    split
    · rfl
    · simp [hks, hco, hblock]

/-- Witness for C1: a one-statement batch with an audit error in a
forceless session is left untouched and dispatches nothing. -/
theorem execute_statements_prescan_blocks_witness :
    (execute_statements { } gateCtxW).2.1 = [] ∧
    (({ } : ExecEnv).killed_start = false → ({ } : ExecEnv).connect_ok = true →
      (execute_statements { } gateCtxW).1 = gateCtxW) :=
  execute_statements_prescan_blocks { } gateCtxW (by decide)

/-! ### Claim C2 -/

/-- Counterexample to C2 as stated.  The claim says a statement whose
dispatch happens after `killed` is observed true never has stage
`executed`; but the killed branch of the statement loop sets
`stage = STAGE_EXECUTED` (with `stage_status = "Killed by user"`), so
in a clean two-statement batch where `killed` flips between the first
and the second statement, the second statement — never sent to the
remote — ends with stage `executed`. -/
theorem killed_stage_executed_cex :
    killedEnvX.killed_at 1 = true ∧
    ((execute_statements killedEnvX killedCtxX).1.cache_nodes[1]?).map
        (fun n => (n.stage, n.stage_status)) =
      some (STAGE_EXECUTED, str "Killed by user") ∧
    STAGE_EXECUTED = 2 := by
  refine ⟨by decide, by decide, rfl⟩

/-- C2 as amended.  Once `killed` is observed true at a statement's
dispatch check, that statement is not dispatched to the remote server
(`execute_one` is never invoked for it); its stage is instead set to
`executed` with `stage_status = "Killed by user"` purely as a record
(the second part applies whenever the loop actually reaches the
statement: batch not empty or pre-killed, connect ok, pre-scan
passed). -/
theorem killed_before_dispatch_not_executed (env : ExecEnv) (ctx : Ctx)
    (j : Nat) (hk : env.killed_at j = true) :
    j ∉ (execute_statements env ctx).2.1 ∧
    (env.killed_start = false → env.connect_ok = true →
      prescanBlocks ctx.force ctx.ignore_warnings ctx.cache_nodes = false →
      j < ctx.cache_nodes.length →
      ((execute_statements env ctx).1.cache_nodes[j]?).map
          (fun n => (n.stage, n.stage_status)) =
        some (STAGE_EXECUTED, str "Killed by user")) := by
  constructor
  · intro hmem
    unfold execute_statements at hmem
    split at hmem
    · simp at hmem
    · split at hmem
      · simp at hmem
      · split at hmem
        · simp at hmem
        · split at hmem
          · simp at hmem
          · have := execLoop_dispatched_not_killed env ctx.force
              ctx.cache_nodes 0 false false j hmem
            rw [this] at hk
            exact Bool.noConfusion hk
  · intro hks hco hps hj
    unfold execute_statements
    have hne : ¬ ctx.cache_nodes = [] := by
      intro h
      rw [h] at hj
      simp at hj
    rw [if_neg hne, hks]
    simp only [Bool.false_eq_true, if_false, hco, not_true, if_false, hps]
    have := execLoop_killed_node env ctx.force ctx.cache_nodes 0 false false j
      hj (by rw [Nat.zero_add]; exact hk)
    simpa using this

/-- Witness for C2 (amended) at the concrete killed batch: the second
statement is not dispatched and is recorded as killed. -/
theorem killed_before_dispatch_not_executed_witness :
    1 ∉ (execute_statements killedEnvX killedCtxX).2.1 ∧
    (killedEnvX.killed_start = false → killedEnvX.connect_ok = true →
      prescanBlocks killedCtxX.force killedCtxX.ignore_warnings
        killedCtxX.cache_nodes = false →
      1 < killedCtxX.cache_nodes.length →
      ((execute_statements killedEnvX killedCtxX).1.cache_nodes[1]?).map
          (fun n => (n.stage, n.stage_status)) =
        some (STAGE_EXECUTED, str "Killed by user")) :=
  killed_before_dispatch_not_executed killedEnvX killedCtxX 1 (by decide)

/-! ### Claim C3 -/

theorem btFind_btSet (bt : List (Str × List Str)) (k v k2) :
    btFind (btSet bt k v) k2 = if k2 = k then some v else btFind bt k2 := by
  induction bt with
  | nil =>
    by_cases h : k2 = k
    · subst h; simp [btSet, btFind]
    · simp [btSet, btFind, h, Ne.symm h]
  | cons p rest ih =>
    obtain ⟨kp, vp⟩ := p
    by_cases hp : kp = k
    · subst hp
      by_cases h : k2 = kp
      · subst h; simp [btSet, btFind]
      · simp [btSet, btFind, h, Ne.symm h]
    · by_cases h : k2 = kp
      · subst h
        simp [btSet, btFind, hp]
      · simp [btSet, btFind, hp, h, Ne.symm h, ih]

theorem btFind_btModify_isSome (bt : List (Str × List Str)) (k k2 f) :
    (btFind (btModify bt k f) k2).isSome = (btFind bt k2).isSome := by
  induction bt with
  | nil => simp [btModify]
  | cons p rest ih =>
    obtain ⟨kp, vp⟩ := p
    by_cases hp : kp = k
    · subst hp
      by_cases h : k2 = kp
      · subst h; simp [btModify, btFind]
      · simp [btModify, btFind, Ne.symm h]
    · by_cases h : k2 = kp
      · subst h; simp [btModify, btFind, hp]
      · simp [btModify, btFind, hp, Ne.symm h, ih]

theorem foldl_btModify_isSome (l : List Str) (bt : List (Str × List Str))
    (k k2 : Str) (g : Str → List Str → List Str) :
    (btFind (l.foldl (fun b c => btModify b k (g c)) bt) k2).isSome =
      (btFind bt k2).isSome := by
  induction l generalizing bt with
  | nil => rfl
  | cons c rest ih =>
    simp only [List.foldl_cons]
    rw [ih, btFind_btModify_isSome]

theorem batchTablesStep_mem (bt : List (Str × List Str)) (op : AuditOp)
    (k : Str) :
    (btFind (batchTablesStep bt op) k).isSome = true ↔
      ((btFind bt k).isSome = true ∨ createsKey k op) := by
  cases op with
  | createTable db tbl cols =>
    cases db with
    | none => simp [batchTablesStep, createsKey]
    | some d =>
      cases tbl with
      | none => simp [batchTablesStep, createsKey]
      | some t =>
        simp only [batchTablesStep, createsKey, btFind_btSet]
        by_cases h : k = batch_table_key d t
        · simp [h]
        · simp [h, Ne.symm h]
  | alterTable db tbl adds drops =>
    cases db with
    | none => simp [batchTablesStep, createsKey]
    | some d =>
      cases tbl with
      | none => simp [batchTablesStep, createsKey]
      | some t =>
        simp only [batchTablesStep, createsKey]
        split
        · rw [foldl_btModify_isSome, foldl_btModify_isSome]
          simp
        · simp
  | dropTable => simp [batchTablesStep, createsKey]
  | truncateTable db tbl => simp [batchTablesStep, createsKey]
  | createDb db => simp [batchTablesStep, createsKey]
  | otherStmt => simp [batchTablesStep, createsKey]

theorem foldl_batchTablesStep_mem (ops : List AuditOp)
    (bt : List (Str × List Str)) (k : Str) :
    (btFind (ops.foldl batchTablesStep bt) k).isSome = true ↔
      ((btFind bt k).isSome = true ∨ ∃ op ∈ ops, createsKey k op) := by
  induction ops generalizing bt with
  | nil => simp
  | cons op rest ih =>
    simp only [List.foldl_cons, List.mem_cons]
    rw [ih, batchTablesStep_mem]
    constructor
    · rintro ((h | h) | ⟨o, ho, hc⟩)
      · exact Or.inl h
      · exact Or.inr ⟨op, Or.inl rfl, h⟩
      · exact Or.inr ⟨o, Or.inr ho, hc⟩
    · rintro (h | ⟨o, (rfl | ho), hc⟩)
      · exact Or.inl (Or.inl h)
      · exact Or.inl (Or.inr hc)
      · exact Or.inr ⟨o, ho, hc⟩

/-- Counterexample to C3 as stated.  The claim says a `DROP TABLE
db.t` audited later in the batch erases the `batch_tables` entry; but
`audit_drop_table` only emits the severity report and never touches
the map, so after `CREATE TABLE d.t` followed by `DROP TABLE d.t`
the entry for `d.t` is still present. -/
theorem drop_table_does_not_erase_cex :
    (btFind (runBatchTables
        [.createTable (some (str "d")) (some (str "t")) [str "id"],
         .dropTable])
      (batch_table_key (str "d") (str "t"))).isSome = true := by decide

/-- C3 as amended.  Over any batch of audited statements, the batch
schema has an entry for `(db, t)` iff a `CREATE TABLE db.t` (with a
resolvable database name) was audited earlier in the same batch —
whatever diagnostics its audit raised.  ALTER mutates only the column
set of a tracked entry, and neither DROP TABLE nor TRUNCATE removes
the entry; only the session reset clears the map. -/
theorem batch_tables_entry_iff_created (ops : List AuditOp) (k : Str) :
    (btFind (runBatchTables ops) k).isSome = true ↔
      ∃ op ∈ ops, createsKey k op := by
  unfold runBatchTables
  rw [foldl_batchTablesStep_mem]
  simp [btFind]

/-! ### Claim C4 -/

theorem foldl_max_cond (b : Bool) (x : Nat) (acc : Nat) :
    (if b then [x] else []).foldl max acc = if b then max acc x else acc := by
  cases b <;> simp

theorem predictWorst_eq_specWorstLevel (f : AlterFlags) (ec : Bool)
    (major : Nat) :
    predictWorst f ec major = specWorstLevel f ec major := by
  unfold predictWorst specWorstLevel specOpLevels partitionAny
  simp only [List.foldl_append, foldl_max_cond]
  by_cases ho : f.options <;> by_cases he : ec <;> simp [ho, he]

/-- C4.  `predict_alter_algorithm` is the worst (maximum) over the
statement's operation flags of the per-operation level of the claim's
table (`specOpLevels`): RENAME, ADD_COLUMN on ≥ 8.0, CHANGE_DEFAULT,
COLUMN_VISIBILITY and comment-only OPTIONS rate INSTANT (0);
ADD_COLUMN below 8.0, DROP_COLUMN, COLUMN_ORDER, ADD_INDEX,
DROP_INDEX, RENAME_INDEX, INDEX_VISIBILITY, KEYS_ONOFF and
DISCARD/IMPORT TABLESPACE rate INPLACE (1); CHANGE_COLUMN, ORDER,
FORCE, any partition operation and ENGINE-changing OPTIONS rate COPY
(2).  In particular {ADD_COLUMN, ADD_INDEX} on 8.0 predicts INPLACE,
adding FORCE or ENGINE-changing OPTIONS upgrades to COPY, and RENAME
alone predicts INSTANT. -/
theorem predict_alter_algorithm_claim (f : AlterFlags) (ec : Bool)
    (major : Nat) :
    predict_alter_algorithm f ec major =
      algoName (specWorstLevel f ec major) ∧
    predict_alter_algorithm { add_column := true, add_index := true }
      false 8 = str "INPLACE" ∧
    predict_alter_algorithm
      { add_column := true, add_index := true, recreate := true }
      false 8 = str "COPY" ∧
    predict_alter_algorithm
      { add_column := true, add_index := true, options := true }
      true 8 = str "COPY" ∧
    predict_alter_algorithm { rename := true } false 8 = str "INSTANT" := by
  refine ⟨?_, by decide, by decide, by decide, by decide⟩
  unfold predict_alter_algorithm
  rw [predictWorst_eq_specWorstLevel]

/-! ### Claim C6 -/

theorem mapLast_length {α : Type} (f : α → α) (l : List α) :
    (mapLast f l).length = l.length := by
  induction l with
  | nil => rfl
  | cons a t ih =>
    cases t with
    | nil => rfl
    | cons b r => simpa [mapLast] using ih

theorem mapLast_dropLast {α : Type} (f : α → α) (l : List α) :
    (mapLast f l).dropLast = l.dropLast := by
  induction l with
  | nil => rfl
  | cons a t ih =>
    cases t with
    | nil => rfl
    | cons b r =>
      show (a :: mapLast f (b :: r)).dropLast = (a :: b :: r).dropLast
      have hne : mapLast f (b :: r) ≠ [] := by
        cases r <;> simp [mapLast]
      obtain ⟨c, t2, hct⟩ := List.exists_cons_of_ne_nil hne
      rw [hct, List.dropLast_cons₂, ← hct, ih, List.dropLast_cons₂]

theorem mapLast_getLast? {α : Type} (f : α → α) (l : List α) :
    (mapLast f l).getLast? = (l.getLast?).map f := by
  induction l with
  | nil => rfl
  | cons a t ih =>
    cases t with
    | nil => rfl
    | cons b r =>
      show (a :: mapLast f (b :: r)).getLast? = ((a :: b :: r).getLast?).map f
      have hne : mapLast f (b :: r) ≠ [] := by
        cases r <;> simp [mapLast]
      obtain ⟨c, t2, hct⟩ := List.exists_cons_of_ne_nil hne
      rw [hct, List.getLast?_cons_cons, ← hct, ih, List.getLast?_cons_cons]

/-- C6.  In split mode, `USE` and `SET` produce no group; every other
intercepted statement is merged into the previous group exactly when
that group's `(db, table)` pair and its DDL-versus-DML class both
match, in which case only the last group changes — its text extended
with the statement's text plus `";\n"`, its `ddlflag` escalated to 1
for ALTER/DROP TABLE; otherwise a new group is appended whose text is
the `USE <current_db>;\n` (or `USE <db>;\n` when no current database
is tracked) followed by the statement's text plus `";\n"`. -/
theorem intercept_statement_split_claim (st : SplitState) (s : SplitStmt) :
    ((s.cmd = .CHANGE_DB ∨ s.cmd = .SET_OPTION) →
      (intercept_statement_split st s).split_nodes = st.split_nodes) ∧
    (s.cmd ≠ .CHANGE_DB → s.cmd ≠ .SET_OPTION →
      (((intercept_statement_split st s).split_nodes.length =
          st.split_nodes.length) ↔
        matchesLastGroup st (splitTarget st s).1 (splitTarget st s).2
          (isDdlCmd s.cmd)) ∧
      (matchesLastGroup st (splitTarget st s).1 (splitTarget st s).2
          (isDdlCmd s.cmd) →
        (intercept_statement_split st s).split_nodes.dropLast =
          st.split_nodes.dropLast ∧
        ((intercept_statement_split st s).split_nodes.getLast?).map
            (fun n => (n.sql_text, n.ddlflag)) =
          (st.split_nodes.getLast?).map (fun n =>
            (n.sql_text ++ strip_inception_comment s.rawQuery ++ str ";\n",
             if (if s.cmd = .ALTER_TABLE ∨ s.cmd = .DROP_TABLE then (1 : Nat)
                 else 0) ≠ 0 then 1 else n.ddlflag))) ∧
      (¬ matchesLastGroup st (splitTarget st s).1 (splitTarget st s).2
          (isDdlCmd s.cmd) →
        (intercept_statement_split st s).split_nodes =
          st.split_nodes ++
            [{ sql_text := splitUsePfx st (splitTarget st s).1 ++
                 strip_inception_comment s.rawQuery ++ str ";\n"
               db_name := (splitTarget st s).1
               table_name := (splitTarget st s).2
               ddlflag := if s.cmd = .ALTER_TABLE ∨ s.cmd = .DROP_TABLE then 1
                 else 0
               is_ddl_type := isDdlCmd s.cmd }])) := by
  constructor
  · rintro (h | h) <;>
      · rw [intercept_statement_split, h]
        cases s.qbDb <;> simp
  · intro h1 h2
    rw [intercept_statement_split, if_neg h1, if_neg h2]
    dsimp only
    by_cases hm : matchesLastGroup st (splitTarget st s).1 (splitTarget st s).2
        (isDdlCmd s.cmd)
    · rw [if_pos hm]
      refine ⟨?_, fun _ => ⟨?_, ?_⟩, fun hn => absurd hm hn⟩
      · simp [mapLast_length, hm]
      · exact mapLast_dropLast _ _
      · rw [mapLast_getLast?]
        cases st.split_nodes.getLast? <;> rfl
    · rw [if_neg hm]
      refine ⟨?_, fun hc => absurd hc hm, fun _ => rfl⟩
      simp only [List.length_append, List.length_cons, List.length_nil]
      constructor
      · intro h
        omega
      · intro hc
        exact absurd hc hm

/-! ### Claim C7 -/

/-- C7.  The marker parser on
`"/*--host=h;--port=42;inception_magic_start;*/ SELECT 1"` (the
spec names the sentinel `magic_start`; in the code it is the literal
`inception_magic_start`): the query is recognized as a batch opener;
the parse succeeds setting exactly `host = "h"` and `port = 42` on
the freshly reset context (every other field keeps its reset value,
and `active` becomes true); and the comment stripper leaves
`"SELECT 1"` as the statement text that gets cached. -/
theorem marker_parse_roundtrip_claim :
    is_inception_start
        (str "/*--host=h;--port=42;inception_magic_start;*/ SELECT 1") =
      true ∧
    parse_inception_start { }
        (str "/*--host=h;--port=42;inception_magic_start;*/ SELECT 1") { } =
      (false, { active := true, host := str "h", port := 42,
                explicit_host := true, explicit_port := true }) ∧
    strip_inception_comment
        (str "/*--host=h;--port=42;inception_magic_start;*/ SELECT 1") =
      str "SELECT 1" := by
  refine ⟨by decide, by decide, by decide⟩

/-! ### Claim C8 -/

theorem tidb_detection_db_type (s : Str) (c : Ctx) :
    (maybe_detect_remote_db_profile (some s) c).db_type =
      (if containsSub s (str "TiDB") || containsSub s (str "tidb")
       then DbType.TIDB else DbType.MYSQL) := by
  unfold maybe_detect_remote_db_profile
  dsimp only
  split <;> rfl

/-- Counterexample to C8 as stated.  The claim says the remote is
classified TiDB when `server_version` contains the TiDB marker as a
case-insensitive substring; but the code probes only the two exact
spellings `"TiDB"` and `"tidb"`, so the version string
`"5.7.25-TIDB-v6.5.3"` — which contains the marker case-insensitively
— is classified MYSQL. -/
theorem tidb_detection_case_cex :
    containsCI (str "5.7.25-TIDB-v6.5.3") (str "tidb") = true ∧
    (maybe_detect_remote_db_profile (some (str "5.7.25-TIDB-v6.5.3"))
        { }).db_type = DbType.MYSQL :=
  ⟨by decide, by decide⟩

/-- C8 as amended.  Profile detection classifies the remote as TiDB
iff `server_version` contains `"TiDB"` or `"tidb"` as a
case-sensitive substring; major.minor is parsed with the TiDB markers
(`TiDB-v|tidb-v|TiDB-|tidb-`) preferred over the first-`M.N`
fallback.  On `"5.7.25-TiDB-v6.5.3"` it yields `{TIDB, 6, 5}` — the
fallback alone would have yielded `(5, 7)`, showing the preference. -/
theorem tidb_detection_claim :
    (∀ (s : Str) (c : Ctx),
      (maybe_detect_remote_db_profile (some s) c).db_type = DbType.TIDB ↔
        (containsSub s (str "TiDB") = true ∨
         containsSub s (str "tidb") = true)) ∧
    (maybe_detect_remote_db_profile (some (str "5.7.25-TiDB-v6.5.3"))
        { }).db_type = DbType.TIDB ∧
    (maybe_detect_remote_db_profile (some (str "5.7.25-TiDB-v6.5.3"))
        { }).db_version_major = 6 ∧
    (maybe_detect_remote_db_profile (some (str "5.7.25-TiDB-v6.5.3"))
        { }).db_version_minor = 5 ∧
    parse_first_version (str "5.7.25-TiDB-v6.5.3") = some (5, 7) := by
  refine ⟨?_, by decide, by decide, by decide, by decide⟩
  intro s c
  rw [tidb_detection_db_type]
  by_cases h1 : containsSub s (str "TiDB") = true <;>
    by_cases h2 : containsSub s (str "tidb") = true <;>
    simp [h1, h2]

/-! ### Parse-path preservation lemmas (shared by C9 and C10) -/

theorem parse_option_active (key val : Str) (c : Ctx) :
    (parse_option key val c).active = c.active := by
  simp only [parse_option, apply_ite Ctx.active, ite_self]

theorem parse_option_cache (key val : Str) (c : Ctx) :
    (parse_option key val c).cache_nodes = c.cache_nodes := by
  simp only [parse_option, apply_ite Ctx.cache_nodes, ite_self]

theorem parseToken_active (tok : Str) (c : Ctx) :
    (parseToken tok c).active = c.active := by
  unfold parseToken
  split
  · rfl
  · split
    · exact parse_option_active _ _ _
    · rfl

theorem parseToken_cache (tok : Str) (c : Ctx) :
    (parseToken tok c).cache_nodes = c.cache_nodes := by
  unfold parseToken
  split
  · rfl
  · split
    · exact parse_option_cache _ _ _
    · rfl

theorem parseTokens_active (fuel : Nat) (body : Str) (c : Ctx) :
    (parseTokens fuel body c).active = c.active := by
  induction fuel generalizing body c with
  | zero => rfl
  | succ fuel ih =>
    rw [parseTokens]
    split
    · rfl
    · rw [ih, parseToken_active]

theorem parseTokens_cache (fuel : Nat) (body : Str) (c : Ctx) :
    (parseTokens fuel body c).cache_nodes = c.cache_nodes := by
  induction fuel generalizing body c with
  | zero => rfl
  | succ fuel ih =>
    rw [parseTokens]
    split
    · rfl
    · rw [ih, parseToken_cache]

theorem finishCtx_preserves (g : Globals) (c : Ctx) :
    (finishCtx g c).active = c.active ∧
    (finishCtx g c).cache_nodes = c.cache_nodes := by
  unfold finishCtx applyDecrypt applyPwFallback applyUserFallback
  constructor <;> (split <;> split <;> split <;> rfl)

theorem parseFinish_cases (g : Globals) (c1 : Ctx) :
    ((parseFinish g c1).1 = true →
      (parseFinish g c1).2.active = c1.active) ∧
    ((parseFinish g c1).1 = false →
      (parseFinish g c1).2.active = true) ∧
    (parseFinish g c1).2.cache_nodes = c1.cache_nodes ∧
    ((parseFinish g c1).2.explicit_port = true →
      ((parseFinish g c1).2.port = 0 ∨ 65535 < (parseFinish g c1).2.port) →
      (parseFinish g c1).1 = true) := by
  have hf := finishCtx_preserves g c1
  unfold parseFinish
  split
  · exact ⟨fun _ => hf.1, fun h => Bool.noConfusion h, hf.2, fun _ _ => rfl⟩
  · rename_i hgate
    refine ⟨fun h => Bool.noConfusion h, fun _ => rfl, hf.2, ?_⟩
    intro hep hpt
    exact absurd ⟨hep, hpt⟩ hgate

theorem parse_inception_start_cases (g : Globals) (q : Str) (ctx : Ctx) :
    ((parse_inception_start g q ctx).1 = true →
      (parse_inception_start g q ctx).2.active = false) ∧
    ((parse_inception_start g q ctx).1 = false →
      (parse_inception_start g q ctx).2.active = true) ∧
    (parse_inception_start g q ctx).2.cache_nodes = [] := by
  unfold parse_inception_start
  split
  · exact ⟨fun _ => rfl, fun h => Bool.noConfusion h, rfl⟩
  · rename_i body hbody
    have hfin := parseFinish_cases g
      (parseTokens (body.length + 1) body (resetCtx ctx))
    have hta := parseTokens_active (body.length + 1) body (resetCtx ctx)
    have htc := parseTokens_cache (body.length + 1) body (resetCtx ctx)
    refine ⟨fun h => ?_, hfin.2.1, ?_⟩
    · rw [hfin.1 h, hta]; rfl
    · rw [hfin.2.2.1, htc]; rfl

theorem maybe_detect_active (rv : Option Str) (c : Ctx) :
    (maybe_detect_remote_db_profile rv c).active = c.active := by
  unfold maybe_detect_remote_db_profile
  cases rv with
  | none => rfl
  | some s =>
    dsimp only
    split <;> rfl

theorem maybe_detect_cache (rv : Option Str) (c : Ctx) :
    (maybe_detect_remote_db_profile rv c).cache_nodes = c.cache_nodes := by
  unfold maybe_detect_remote_db_profile
  cases rv with
  | none => rfl
  | some s =>
    dsimp only
    split <;> rfl

/-! ### Claim C9 -/

/-- Counterexample to C9 as stated.  The claim says a `magic_start`
arriving while the session is already active is treated as an error;
but `before_parse` runs `parse_inception_start` unconditionally — and
that begins with `reset()` — so on an active context holding a cached
statement, a second start marker raises no error: it silently
discards the running batch and opens a fresh active one (empty
statement cache). -/
theorem second_magic_start_not_error_cex :
    activeCtxX.active = true ∧
    activeCtxX.cache_nodes ≠ [] ∧
    (before_parse { } none activeCtxX
        (str "/*--host=b;inception_magic_start;*/ SELECT 2")).error = false ∧
    (before_parse { } none activeCtxX
        (str "/*--host=b;inception_magic_start;*/ SELECT 2")).ctx.active =
      true ∧
    (before_parse { } none activeCtxX
        (str "/*--host=b;inception_magic_start;*/ SELECT 2")).ctx.cache_nodes =
      [] := by
  refine ⟨rfl, by decide, by decide, by decide, by decide⟩

/-- C9 as amended.  The session state machine does not nest, but not
by erroring: a `magic_start` marker that parses successfully — even
one arriving while the context is active — resets the context
(discarding any cached batch) and opens a single fresh batch:
afterwards no error has been raised, `active` is true and the
statement cache is empty. -/
theorem second_magic_start_resets (g : Globals) (rv : Option Str) (ctx : Ctx)
    (q : Str) (hs : is_inception_start q = true)
    (hc : is_inception_commit q = false)
    (hok : (parse_inception_start g q ctx).1 = false) :
    (before_parse g rv ctx q).error = false ∧
    (before_parse g rv ctx q).ctx.active = true ∧
    (before_parse g rv ctx q).ctx.cache_nodes = [] := by
  have hcases := parse_inception_start_cases g q ctx
  unfold before_parse
  simp only [hc, hs, hok, Bool.false_eq_true, if_false, if_true]
  split <;>
    exact ⟨rfl,
      by rw [maybe_detect_active, hcases.2.1 hok],
      by rw [maybe_detect_cache, hcases.2.2]⟩

/-- Witness for C9 (amended): the concrete second start marker on the
active one-statement context. -/
theorem second_magic_start_resets_witness :
    (before_parse { } none activeCtxX
        (str "/*--host=c;inception_magic_start;*/ SELECT 3")).error = false ∧
    (before_parse { } none activeCtxX
        (str "/*--host=c;inception_magic_start;*/ SELECT 3")).ctx.active =
      true ∧
    (before_parse { } none activeCtxX
        (str "/*--host=c;inception_magic_start;*/ SELECT 3")).ctx.cache_nodes =
      [] :=
  second_magic_start_resets { } none activeCtxX
    (str "/*--host=c;inception_magic_start;*/ SELECT 3")
    (by decide) (by decide) (by decide)

/-! ### Claim C10 -/

/-- C10.  When the magic-start comment explicitly supplies a `--port`
whose parsed value (after `strtoul` and the `uint` cast) is 0 or
greater than 65535, `parse_inception_start` returns the error result
and the context is left with `active = false`: no batch is opened. -/
theorem explicit_bad_port_blocks (g : Globals) (q : Str) (ctx : Ctx)
    (hp : (parse_inception_start g q ctx).2.explicit_port = true)
    (hbad : (parse_inception_start g q ctx).2.port = 0 ∨
      65535 < (parse_inception_start g q ctx).2.port) :
    (parse_inception_start g q ctx).1 = true ∧
    (parse_inception_start g q ctx).2.active = false := by
  have herr : (parse_inception_start g q ctx).1 = true := by
    cases hmb : markerBody q with
    | none => simp [parse_inception_start, hmb]
    | some body =>
      simp only [parse_inception_start, hmb] at hp hbad ⊢
      exact (parseFinish_cases g
        (parseTokens (body.length + 1) body (resetCtx ctx))).2.2.2 hp hbad
  exact ⟨herr, (parse_inception_start_cases g q ctx).1 herr⟩

/-- Witness for C10 at `--port=70000`. -/
theorem explicit_bad_port_blocks_witness :
    (parse_inception_start { }
        (str "/*--port=70000;inception_magic_start;*/ SELECT 1") { }).1 =
      true ∧
    (parse_inception_start { }
        (str "/*--port=70000;inception_magic_start;*/ SELECT 1") { }).2.active =
      false :=
  explicit_bad_port_blocks { }
    (str "/*--port=70000;inception_magic_start;*/ SELECT 1") { }
    (by decide) (by decide)

/-- Witness for C6 at the concrete merging insert: the second
`INSERT INTO o` in split mode merges into the existing `o` group. -/
theorem intercept_statement_split_claim_witness :
    (((intercept_statement_split splitStW splitSW).split_nodes.length =
        splitStW.split_nodes.length) ↔
      matchesLastGroup splitStW (splitTarget splitStW splitSW).1
        (splitTarget splitStW splitSW).2 (isDdlCmd splitSW.cmd)) ∧
    (matchesLastGroup splitStW (splitTarget splitStW splitSW).1
        (splitTarget splitStW splitSW).2 (isDdlCmd splitSW.cmd) →
      (intercept_statement_split splitStW splitSW).split_nodes.dropLast =
        splitStW.split_nodes.dropLast ∧
      ((intercept_statement_split splitStW splitSW).split_nodes.getLast?).map
          (fun n => (n.sql_text, n.ddlflag)) =
        (splitStW.split_nodes.getLast?).map (fun n =>
          (n.sql_text ++ strip_inception_comment splitSW.rawQuery ++ str ";\n",
           if (if splitSW.cmd = .ALTER_TABLE ∨ splitSW.cmd = .DROP_TABLE
               then (1 : Nat) else 0) ≠ 0 then 1 else n.ddlflag))) ∧
    (¬ matchesLastGroup splitStW (splitTarget splitStW splitSW).1
        (splitTarget splitStW splitSW).2 (isDdlCmd splitSW.cmd) →
      (intercept_statement_split splitStW splitSW).split_nodes =
        splitStW.split_nodes ++
          [{ sql_text := splitUsePfx splitStW (splitTarget splitStW splitSW).1 ++
               strip_inception_comment splitSW.rawQuery ++ str ";\n"
             db_name := (splitTarget splitStW splitSW).1
             table_name := (splitTarget splitStW splitSW).2
             ddlflag := if splitSW.cmd = .ALTER_TABLE ∨ splitSW.cmd = .DROP_TABLE
               then 1 else 0
             is_ddl_type := isDdlCmd splitSW.cmd }]) :=
  (intercept_statement_split_claim splitStW splitSW).2 (by decide) (by decide)

end Inception
